import Mathlib

/-!
Verification of the Position State Reconciliation Engine of the `botbtc`
trading bot (`src/trading_bot.py`, `src/bybit_trader.py`, `src/signal_parser.py`).

The Python code is shallowly embedded:
* `decimal.Decimal` values that are only compared and combined arithmetically
  are modelled as `ℚ` (Python `Decimal` comparison is numeric equality; the
  28-significant-digit context rounding of `Decimal` arithmetic is modelled as
  exact rational arithmetic).
* Where the exact string representation of a `Decimal` matters (persistence,
  the `"0"` sentinel checks), a structural model `PyDec` (sign, coefficient,
  exponent) is used, mirroring `Decimal.as_tuple()`.
* Python truthiness of optional `Decimal` fields (`None` and `Decimal(0)` are
  falsy) is modelled by `truthyQ` / `pyOrQ`.
* `async` control flow is sequentialised: each modelled function is a pure
  state transformer; network calls become explicit inputs (oracles).
-/

/-! ## Common helpers: Python truthiness and Decimal-as-ℚ operations -/

/-- Python truthiness of an optional `Decimal` value: `None` and `Decimal(0)`
are falsy, every other value is truthy. -/
def truthyQ : Option ℚ → Bool
  | none => false
  | some x => x != 0

/-- Python `a or b` on two optional `Decimal` values (used for
`entry_price or signal_entry_price` in `trading_bot.py:829`). -/
def pyOrQ (a b : Option ℚ) : Option ℚ :=
  if truthyQ a then a else b

/-- Python `==` on two optional `Decimal` values: `None == None` is `True`,
`None == Decimal(...)` is `False`, two `Decimal`s compare numerically. -/
def pyEqOptQ (a b : Option ℚ) : Bool :=
  match a, b with
  | none, none => true
  | some x, some y => x == y
  | _, _ => false

/-- `ROUND_DOWN` (truncation toward zero) of a rational to an integer,
as used by `Decimal.quantize(..., rounding=ROUND_DOWN)`. -/
def roundDownQ (q : ℚ) : ℤ :=
  if 0 ≤ q then ⌊q⌋ else -⌊-q⌋

/-- `TradingBot._format_price` (`trading_bot.py:348`) for an instrument whose
`tickSize` is known and positive: the price is quantized down to a multiple of
the tick.  The numeric value of the returned string is
`trunc(p / tick) * tick`.  (The config-precision fallback for a missing or
non-positive tick is not exercised by the claims, which all fix a positive
tick.) -/
def formatPrice (tick p : ℚ) : ℚ :=
  if 0 < tick then (roundDownQ (p / tick) : ℚ) * tick else p

/-- `Decimal(self._format_price(v, symbol)) if v else None`
(`trading_bot.py:735`): the tick-rounding applied to a truthy optional value,
`None` for a falsy one. -/
def fmtOpt (tick : ℚ) (v : Option ℚ) : Option ℚ :=
  if truthyQ v then some (formatPrice tick (v.getD 0)) else none

/-- Python `str.upper` on one character (the sides handled by the bot are
ASCII strings such as `"Buy"`, `"Sell"`, `"LONG"`; the Unicode cases of
`str.upper` are irrelevant here). -/
def charUpper (c : Char) : Char :=
  if 'a' ≤ c ∧ c ≤ 'z' then Char.ofNat (c.toNat - 32) else c

/-- Python `str.upper` on an ASCII string. -/
def pyUpper (s : String) : String :=
  String.mk (s.data.map charUpper)

/-! ## C5 — risk-percentage position sizing
`TradingBot._calculate_position_size_risk_percentage` (`trading_bot.py:973`). -/

/-- The `position` field of a parsed `TradingSignal`.  `SignalParser`
(`signal_parser.py:68`) only ever produces the strings `"LONG"` or `"SHORT"`,
so the direction is modelled as a two-valued type. -/
inductive SigSide where
  | long
  | short
deriving DecidableEq, Repr

/-- The fields of `TradingSignal` used by the risk-percentage sizing. -/
structure RiskSignal where
  entry_price : Option ℚ
  stop_loss : Option ℚ
  side : SigSide
deriving Repr

/-- `TradingBot._calculate_position_size_risk_percentage`
(`trading_bot.py:973-1008`): fails closed (returns `0`) on non-positive
balance, missing or non-positive entry/stop, or a direction inconsistent with
the entry/stop ordering; otherwise returns
`availableBalance * (riskPercent / 100) / |entry - stop|`.
(Python truthiness: `not signal.entry_price` is true for `None` and for
`Decimal(0)`; both are covered by the `≤ 0` tests.) -/
def calcRiskQty (availBal riskPct : ℚ) (sig : RiskSignal) : ℚ :=
  if availBal ≤ 0 then 0
  else
    match sig.entry_price with
    | none => 0
    | some e =>
      if e ≤ 0 then 0
      else
        match sig.stop_loss with
        | none => 0
        | some sl =>
          if sl ≤ 0 then 0
          else if sig.side = SigSide.long ∧ e ≤ sl then 0
          else if sig.side = SigSide.short ∧ sl ≤ e then 0
          else if |e - sl| ≤ 0 then 0
          else availBal * (riskPct / 100) / |e - sl|

/-! ## C1 — break-even promotion
The break-even section of one pass of
`TradingBot._periodic_verify_and_maintain_tpsl` (`trading_bot.py:821-886`)
for a single tracked key.  Trade-history and disk side effects of the
promotion are not modelled here (C1 speaks only about the position fields);
the two flushes to disk happen inside the modelled branches. -/

/-- The fields of a tracked-position dict used by the break-even logic. -/
structure BePos where
  side : String
  entry_price : Option ℚ
  signal_entry_price : Option ℚ
  intended_sl : Option ℚ
  tp1_price : Option ℚ
  breakeven_applied : Bool
  last_known_size : Option ℚ
deriving Repr, DecidableEq

/-- Exchange data consumed by one maintenance pass for one key:
the position's `avgPrice` (`none` for an absent or `"0"` string), its `size`,
and the ticker `lastPrice` (`none` when the fetch fails or yields nothing). -/
structure BeInp where
  avgPrice : Option ℚ
  size : ℚ
  marketPrice : Option ℚ
deriving Repr

/-- The two break-even configuration switches
(`enable_breakeven_on_partial_tp`, hardcoded `True` in `__init__`, and
`enable_breakeven_on_tp1` from config). -/
structure BeCfg where
  enable_be_on_size_drop : Bool
  enable_be_on_tp1 : Bool
deriving Repr

/-- `trading_bot.py:821-827`: backfill the tracked `entry_price` from the
exchange `avgPrice` when the latter is present and not `"0"`. -/
def entrySync (inp : BeInp) (p : BePos) : BePos :=
  match inp.avgPrice with
  | some a => { p with entry_price := some a }
  | none => p

/-- `trading_bot.py:829`: `entry_price or signal_entry_price`
(Python `or`, so a `Decimal(0)` entry price falls through). -/
def actualEntry (p : BePos) : Option ℚ :=
  pyOrQ p.entry_price p.signal_entry_price

/-- `trading_bot.py:834-845`: the size-drop break-even trigger.  `be0` is the
`breakeven_already_applied` flag read once at line 831, `ae` the
`actual_entry_price` read at line 829. -/
def dropTrig (enabled be0 : Bool) (ae : Option ℚ) (size : ℚ) (p : BePos) :
    BePos :=
  if enabled && !be0 && truthyQ ae then
    if size < p.last_known_size.getD size then
      { p with intended_sl := ae, breakeven_applied := true, last_known_size := some size }
    else { p with last_known_size := some size }
  else p

/-- `trading_bot.py:848-884`: the TP1-price-crossing break-even trigger.
`be0`, `ae`, `tp1` and `side` are the values read at lines 829-832 (before the
size-drop trigger ran); `p` is the position dict as the trigger finds it
(after the size-drop trigger).  When the tick-rounded current stop already
equals the tick-rounded entry, only the flag is set (line 881-884). -/
def tp1Trig (enabled be0 : Bool) (tick : ℚ) (ae tp1 : Option ℚ)
    (side : String) (mp : Option ℚ) (p : BePos) : BePos :=
  if enabled && !be0 && truthyQ tp1 && truthyQ ae && decide (0 < ae.getD 0) then
    if truthyQ mp then
      let m := mp.getD 0
      let t := tp1.getD 0
      let hit := (side == "BUY" && decide (t ≤ m)) ||
        (side == "SELL" && decide (m ≤ t))
      if hit then
        let newF := formatPrice tick (ae.getD 0)
        let curF : Option ℚ :=
          if truthyQ p.intended_sl then
            some (formatPrice tick (p.intended_sl.getD 0))
          else none
        if curF = some newF then { p with breakeven_applied := true }
        else { p with intended_sl := ae, breakeven_applied := true }
      else p
    else p
  else p

/-- One break-even maintenance step for one key
(`trading_bot.py:821-886`): entry-price backfill, then both break-even
triggers guarded by the stale `breakeven_already_applied` read. -/
def beStep (cfg : BeCfg) (tick : ℚ) (inp : BeInp) (p : BePos) : BePos :=
  let p1 := entrySync inp p
  let be0 := p1.breakeven_applied
  let ae := actualEntry p1
  let tp1 := p1.tp1_price
  let side := pyUpper p1.side
  let p3 := dropTrig cfg.enable_be_on_size_drop be0 ae inp.size p1
  tp1Trig cfg.enable_be_on_tp1 be0 tick ae tp1 side inp.marketPrice p3

/-- A sequence of maintenance passes over a position's lifetime. -/
def beRun (cfg : BeCfg) (tick : ℚ) (l : List BeInp) (p : BePos) : BePos :=
  l.foldl (fun q i => beStep cfg tick i q) p

/-! ## Structural model of Python `Decimal` and `datetime`
Used where the exact string representation matters (persistence round-trips,
the `"0"` sentinel checks of the reconciliation code). -/

/-- A finite Python `Decimal` as in `Decimal.as_tuple()`: sign, coefficient
and exponent.  The coefficient is a natural number (Python strips leading
zeros when parsing), special values (`NaN`, `Infinity`) do not occur in this
program and are not modelled. -/
structure PyDec where
  neg : Bool
  coeff : ℕ
  exp : ℤ
deriving DecidableEq, Repr

/-- The digit list (most significant first) of a coefficient;
`[0]` for zero, as in Python where the zero coefficient has digit tuple
`(0,)`. -/
def decDigits (c : ℕ) : List ℕ :=
  if c = 0 then [0] else (Nat.digits 10 c).reverse

/-- Value of a most-significant-first digit list. -/
def ofDigitsBE (l : List ℕ) : ℕ :=
  Nat.ofDigits 10 l.reverse

/-- The information content of the string produced by Python
`str(Decimal(...))` (the `to-scientific-string` conversion of the decimal
specification): either a plain decimal literal `[-]int[.frac]` or a
scientific one `[-]d[.rest]E±adj`.  Each constructor corresponds to exactly
one unambiguous string shape, rendered by `sciChars`. -/
inductive SciStr where
  | plain (neg : Bool) (intDs fracDs : List ℕ)
  | sci (neg : Bool) (ds : List ℕ) (adj : ℤ)
deriving DecidableEq, Repr

/-- Python `str` on a finite `Decimal` (`to-scientific-string`): plain form
when `exp ≤ 0` and the adjusted exponent is at least `-6`, scientific form
otherwise. -/
def decToSci (d : PyDec) : SciStr :=
  let ds := decDigits d.coeff
  let adj : ℤ := d.exp + ds.length - 1
  if d.exp ≤ 0 ∧ -6 ≤ adj then
    if d.exp = 0 then SciStr.plain d.neg ds []
    else
      let k := (-d.exp).toNat
      if k < ds.length then
        SciStr.plain d.neg (ds.take (ds.length - k)) (ds.drop (ds.length - k))
      else SciStr.plain d.neg [0] (List.replicate (k - ds.length) 0 ++ ds)
  else SciStr.sci d.neg ds adj

/-- The `Decimal` string constructor applied to a string of one of the two
shapes emitted by `str`: digits are concatenated into the coefficient
(Python strips leading zeros), the exponent is read off the fraction length
and the explicit exponent. -/
def sciToDec (s : SciStr) : PyDec :=
  match s with
  | SciStr.plain neg i f => ⟨neg, ofDigitsBE (i ++ f), -(f.length : ℤ)⟩
  | SciStr.sci neg ds adj => ⟨neg, ofDigitsBE ds, adj - (ds.length - 1 : ℕ)⟩

/-- One decimal digit as a character. -/
def digChar : ℕ → Char
  | 0 => '0'
  | 1 => '1'
  | 2 => '2'
  | 3 => '3'
  | 4 => '4'
  | 5 => '5'
  | 6 => '6'
  | 7 => '7'
  | 8 => '8'
  | 9 => '9'
  | _ => '*'

/-- Numeric value of a digit character. -/
def charDigitVal (c : Char) : ℕ := c.toNat - 48

/-- Python `str` on a natural number, as characters. -/
def natChars (n : ℕ) : List Char := (decDigits n).map digChar

/-- Python `str` on a natural number. -/
def natStr (n : ℕ) : String := String.mk (natChars n)

/-- Render a `SciStr` to the actual characters of the Python string
(plain: `[-]int[.frac]`; scientific: `[-]d[.rest]E[±]adj`). -/
def sciChars (s : SciStr) : List Char :=
  match s with
  | SciStr.plain neg i f =>
    (if neg then ['-'] else []) ++ i.map digChar ++
      (if f.isEmpty then [] else '.' :: f.map digChar)
  | SciStr.sci neg ds adj =>
    (if neg then ['-'] else []) ++
      (match ds with
       | [] => []
       | h :: t => digChar h :: (if t.isEmpty then [] else '.' :: t.map digChar)) ++
      ['E'] ++
      (if adj < 0 then '-' :: natChars (-adj).toNat else '+' :: natChars adj.toNat)

/-- `str(d)` for a finite Python `Decimal`. -/
def decStr (d : PyDec) : String := String.mk (sciChars (decToSci d))

/-- A naive Python `datetime` (as produced by `datetime.utcnow()`). -/
structure PyDateTime where
  year : ℕ
  month : ℕ
  day : ℕ
  hour : ℕ
  minute : ℕ
  second : ℕ
  microsecond : ℕ
deriving DecidableEq, Repr

/-- The information content of `datetime.isoformat()` on a naive datetime:
`YYYY-MM-DDTHH:MM:SS[.ffffff]`, the fractional part present exactly when the
microsecond is non-zero. -/
structure IsoTs where
  year : ℕ
  month : ℕ
  day : ℕ
  hour : ℕ
  minute : ℕ
  second : ℕ
  micro : Option ℕ
deriving DecidableEq, Repr

/-- `datetime.isoformat()` (`trading_bot.py:142`). -/
def dtToIso (t : PyDateTime) : IsoTs :=
  ⟨t.year, t.month, t.day, t.hour, t.minute, t.second,
    if t.microsecond = 0 then none else some t.microsecond⟩

/-- `datetime.fromisoformat` applied to an `isoformat` output
(`trading_bot.py:219`). -/
def isoToDt (s : IsoTs) : PyDateTime :=
  ⟨s.year, s.month, s.day, s.hour, s.minute, s.second, s.micro.getD 0⟩

/-- Python `str.capitalize` (ASCII): first character uppercased, the rest
lowercased. -/
def charLower (c : Char) : Char :=
  if 'A' ≤ c ∧ c ≤ 'Z' then Char.ofNat (c.toNat + 32) else c

/-- Python `str.capitalize` on an ASCII string
(used by `_add_trade_to_history` for the `type` column). -/
def pyCap (s : String) : String :=
  match s.data with
  | [] => ""
  | c :: t => String.mk (charUpper c :: t.map charLower)

/-! ## C7 — position-store persistence
`_save_active_positions_to_disk` (`trading_bot.py:168`) and
`_load_active_positions_from_disk` (`trading_bot.py:196`). -/

/-- A tracked position as kept in `active_positions_details`
(`trading_bot.py:110-125`). -/
structure TrackedPos where
  symbol : String
  position_idx : ℕ
  side : String
  entry_price : Option PyDec
  signal_entry_price : Option PyDec
  intended_sl : Option PyDec
  intended_tp1 : Option PyDec
  tp1_price : Option PyDec
  breakeven_applied : Bool
  main_order_id : Option String
  main_order_status : String
  tp_order_ids : List String
  last_update_time : Option PyDateTime
  last_known_size : Option PyDec
deriving DecidableEq, Repr

/-- The JSON object written for one position by `_serialize_value`
(`trading_bot.py:137`): `Decimal` fields become their `str` form (modelled
structurally by `SciStr`), the timestamp becomes its `isoformat` form,
everything else is passed through. -/
structure SerPos where
  symbol : String
  position_idx : ℕ
  side : String
  entry_price : Option SciStr
  signal_entry_price : Option SciStr
  intended_sl : Option SciStr
  intended_tp1 : Option SciStr
  tp1_price : Option SciStr
  breakeven_applied : Bool
  main_order_id : Option String
  main_order_status : String
  tp_order_ids : List String
  last_update_time : Option IsoTs
  last_known_size : Option SciStr
deriving DecidableEq, Repr

/-- `_serialize_value` applied to one position dict
(`trading_bot.py:137-147`, used at line 184). -/
def serializePos (p : TrackedPos) : SerPos :=
  ⟨p.symbol, p.position_idx, p.side, p.entry_price.map decToSci,
    p.signal_entry_price.map decToSci, p.intended_sl.map decToSci,
    p.intended_tp1.map decToSci, p.tp1_price.map decToSci,
    p.breakeven_applied, p.main_order_id, p.main_order_status,
    p.tp_order_ids, p.last_update_time.map dtToIso,
    p.last_known_size.map decToSci⟩

/-- The per-field deserialization of `_load_active_positions_from_disk`
(`trading_bot.py:214-223`): the listed decimal fields are re-parsed with
`Decimal(str(v))` when not `None`, `last_update_time` with
`datetime.fromisoformat` (an isoformat string is always non-empty, so its
truthiness test passes), `tp_order_ids` is mapped through `str` (identity on
strings), every other field is passed through. -/
def deserializePos (s : SerPos) : TrackedPos :=
  ⟨s.symbol, s.position_idx, s.side, s.entry_price.map sciToDec,
    s.signal_entry_price.map sciToDec, s.intended_sl.map sciToDec,
    s.intended_tp1.map sciToDec, s.tp1_price.map sciToDec,
    s.breakeven_applied, s.main_order_id, s.main_order_status,
    s.tp_order_ids, s.last_update_time.map isoToDt,
    s.last_known_size.map sciToDec⟩

/-- The persisted key string `f"SYMBOL_SLOT"` (`trading_bot.py:183`). -/
def keyChars (sym : String) (idx : ℕ) : List Char :=
  sym.data ++ '_' :: natChars idx

/-- Python `key_str.rsplit('_', 1)` when it yields two parts
(`trading_bot.py:211`): split at the last underscore; `none` when the key has
no underscore (in which case the load loop skips the entry). -/
def rsplitLast : List Char → Option (List Char × List Char)
  | [] => none
  | c :: rest =>
    match rsplitLast rest with
    | some (a, b) => some (c :: a, b)
    | none => if c = '_' then some ([], rest) else none

/-- Python `int(...)` on the slot part of a key: succeeds exactly on a
non-empty all-digit string (signs and whitespace never occur in keys the
bot itself wrote). -/
def charsToNat (l : List Char) : Option ℕ :=
  if l ≠ [] ∧ l.all Char.isDigit then some (ofDigitsBE (l.map charDigitVal))
  else none

/-- Reconstruction of the `(symbol, position_idx)` key from its string form
(`trading_bot.py:211-212`); `none` models the `ValueError` path in which the
entry is skipped. -/
def parseKey (l : List Char) : Option (String × ℕ) :=
  match rsplitLast l with
  | none => none
  | some (a, b) => (charsToNat b).map (fun idx => (String.mk a, idx))

/-- `_save_active_positions_to_disk`: the JSON document is the store with
keys rendered as `"SYMBOL_SLOT"` and values serialized. -/
def saveStore (l : List ((String × ℕ) × TrackedPos)) :
    List (List Char × SerPos) :=
  l.map (fun e => (keyChars e.1.1 e.1.2, serializePos e.2))

/-- `_load_active_positions_from_disk`: every entry whose key parses is
deserialized; entries with unparseable keys are skipped. -/
def loadStore (l : List (List Char × SerPos)) :
    List ((String × ℕ) × TrackedPos) :=
  l.filterMap (fun e => (parseKey e.1).map (fun k => (k, deserializePos e.2)))

/-! ## C2 — closure detection and the Trade History log
`_add_trade_to_history` (`trading_bot.py:280`), `_handle_closed_position`
(`trading_bot.py:433`) and the closure branch of
`_periodic_verify_and_maintain_tpsl` (`trading_bot.py:804-819`). -/

/-- One Trade History record as built by `_add_trade_to_history`
(`trading_bot.py:283-293`). -/
structure HEntry where
  time : String
  symbol : String
  htype : String
  amount : String
  price : String
  order_id : String
  status : String
  pnl : String
  notes : String
deriving DecidableEq, Repr

/-- Python `x if x else d` on an optional string (empty string is falsy). -/
def pyStrOr (s : Option String) (d : String) : String :=
  match s with
  | some x => if x = "" then d else x
  | none => d

/-- `_add_trade_to_history` (`trading_bot.py:280-296`): appends exactly one
record to the history list (and flushes it to disk; UI callbacks are not
modelled).  `now` is the formatted Thailand-timezone timestamp. -/
def addTradeToHistory (now symbol orderType side qty : String)
    (price orderId : Option String) (status : String) (pnl : String)
    (notes : Option String) (hist : List HEntry) : List HEntry :=
  hist ++ [⟨now, symbol, pyCap side ++ " " ++ pyCap orderType, qty,
    pyStrOr price "Market", pyStrOr orderId "N/A", status, pnl,
    pyStrOr notes ""⟩]

/-- The tracked-position fields used by the closure path. -/
structure Pos2 where
  symbol : String
  position_idx : ℕ
  side : String
  main_order_status : String
  last_known_size : Option PyDec
deriving DecidableEq, Repr

/-- `str(tracked_info.get('last_known_size', 'N/A'))`
(`trading_bot.py:450`); `none` models the key being absent. -/
def strOfOptDec (o : Option PyDec) : String :=
  match o with
  | some d => decStr d
  | none => "N/A"

/-- `_handle_closed_position` (`trading_bot.py:433-473`) for one key,
sequentially: pop the key from the store; if it was not tracked, do nothing
more; otherwise append exactly one Trade History record with status
`"Position Closed (<reason>)"`.  (The Telegram notification, the disk
flushes and the re-check `if pos_key in self.active_positions_details` —
which never fires after the pop in sequential execution — have no effect on
store or history.)  In the periodic-check call path `closed_position_data`
is the tracked dict itself, which has no `size` key, so the quantity falls
back to `last_known_size`. -/
def handleClosedPos (now : String) (store : Option Pos2) (hist : List HEntry)
    (reasonOverride : Option String) : Option Pos2 × List HEntry :=
  match store with
  | none => (none, hist)
  | some ti =>
    let reason := reasonOverride.getD "Position Closed (Reason Undetermined)"
    (none,
      addTradeToHistory now ti.symbol "System Close" ti.side
        (strOfOptDec ti.last_known_size) (some "N/A") none
        ("Position Closed (" ++ reason ++ ")") "N/A"
        (some ("PosIdx " ++ natStr ti.position_idx)) hist)

/-- The closure-detection step of one periodic pass for one key
(`trading_bot.py:804-819`): keys whose main order status is neither
`"Filled"` nor `"N/A (External/Synced)"` are skipped; a key whose position
is absent from the exchange (`apiSize = none`) or has size zero is handed to
`_handle_closed_position` with no reason override. -/
def periodicCloseStep (now : String) (store : Option Pos2)
    (hist : List HEntry) (apiSize : Option ℚ) : Option Pos2 × List HEntry :=
  match store with
  | none => (none, hist)
  | some pd =>
    if pd.main_order_status = "Filled" ∨
        pd.main_order_status = "N/A (External/Synced)" then
      match apiSize with
      | none => handleClosedPos now store hist none
      | some sz =>
        if sz = 0 then handleClosedPos now store hist none else (store, hist)
    else (store, hist)

/-- Boolean prefix test on character lists. -/
def listPrefixOf : List Char → List Char → Bool
  | [], _ => true
  | _ :: _, [] => false
  | a :: as, b :: bs => a == b && listPrefixOf as bs

/-- Boolean infix test on character lists. -/
def subListOf (n : List Char) : List Char → Bool
  | [] => n.isEmpty
  | c :: t => listPrefixOf n (c :: t) || subListOf n t

/-- Python `needle in hay` on strings. -/
def strContains (needle hay : String) : Bool := subListOf needle.data hay.data

/-- Number of Trade History records whose status mentions
`"Position Closed"`. -/
def countClosed (hist : List HEntry) : ℕ :=
  hist.countP (fun e => strContains "Position Closed" e.status)

/-! ## C3, C8, C9 — TP/SL drift correction with bounded retries
`_verify_and_set_tpsl_for_position` (`trading_bot.py:699-781`) and
`BybitTrader.set_trading_stop` (`bybit_trader.py:538-613`). -/

/-- Retry/delay constants (`trading_bot.py:31-32`). -/
def TPSL_VERIFICATION_RETRIES : ℕ := 3

/-- `TPSL_RETRY_DELAY_SECONDS` (`trading_bot.py:32`). -/
def TPSL_RETRY_DELAY_SECONDS : ℕ := 10

/-- The outcome of the `set_trading_stop` REST call as the engine sees it:
a typed error from `safe_api_call`, a response payload with a `retCode`, or
no/malformed response (which also covers the exception path — both return
`False`). -/
inductive ApiResp where
  | apiError (code : Option ℤ) (msg : String)
  | apiOk (retCode : ℤ)
  | noResponse
deriving DecidableEq, Repr

/-- Python `str.lower` on an ASCII string. -/
def lowerStr (s : String) : String := String.mk (s.data.map charLower)

/-- `BybitTrader.set_trading_stop` result classification
(`bybit_trader.py:586-610`): an error is benign — treated as success — when
its code is 110043 or its lowercased message contains
`"tpsl identical modify"` or `"not modified"`; a response succeeds when
`retCode` is 0, or 110043 (identical modify); everything else is a failure. -/
def setStopOutcome (r : ApiResp) : Bool :=
  match r with
  | ApiResp.apiError code msg =>
    code == some 110043 || strContains "tpsl identical modify" (lowerStr msg) ||
      strContains "not modified" (lowerStr msg)
  | ApiResp.apiOk rc => rc == 0 || rc == 110043
  | ApiResp.noResponse => false

/-- The tracked fields used by `_verify_and_set_tpsl_for_position`. -/
structure VerifyPos where
  intended_tp1 : Option ℚ
  intended_sl : Option ℚ
  main_order_status : String
  entry_price : Option ℚ
  side : String
  last_known_size : Option PyDec
deriving DecidableEq, Repr

/-- The exchange-side truth for one position key: whether the key has a
position, its size, and the reported take-profit/stop-loss (parsed — `none`
models an absent or `"0"` report, `trading_bot.py:729-730`). -/
structure ExchState where
  present : Bool
  size : ℚ
  takeProfit : Option ℚ
  stopLoss : Option ℚ
deriving DecidableEq, Repr

/-- State threaded through one verification pass: the single key of the
store, the Trade History, the exchange, plus instrumentation (number of
`set_trading_stop` calls issued, `asyncio.sleep` delays taken between
attempts). -/
structure VerifySt where
  store : Option VerifyPos
  hist : List HEntry
  exch : ExchState
  calls : ℕ
  sleeps : List ℕ
deriving Repr

/-- The match test of `trading_bot.py:735-739`: the tick-rounded intended
values (`None` for a falsy intended value) are compared with Python `==`
against the raw exchange-parsed values; a side also matches when both are
falsy (`None` or numerically zero). -/
def tpslMatches (tick : ℚ) (td : VerifyPos) (ex : ExchState) : Bool :=
  (pyEqOptQ (fmtOpt tick td.intended_tp1) ex.takeProfit ||
    (!truthyQ (fmtOpt tick td.intended_tp1) && !truthyQ ex.takeProfit)) &&
  (pyEqOptQ (fmtOpt tick td.intended_sl) ex.stopLoss ||
    (!truthyQ (fmtOpt tick td.intended_sl) && !truthyQ ex.stopLoss))

/-- Clearing semantics of the set-stops call: a side sent as the string
`"0"` (falsy intended value, `trading_bot.py:748-749`) — or whose rounded
value is numerically zero — is cleared on the exchange and read back as
absent. -/
def clearZero (o : Option ℚ) : Option ℚ :=
  match o with
  | some x => if x = 0 then none else some x
  | none => none

/-- The exchange state after a genuinely successful `set_trading_stop` with
the tick-rounded intended values (`trading_bot.py:748-754`). -/
def setOnExch (tick : ℚ) (td : VerifyPos) (ex : ExchState) : ExchState :=
  { ex with takeProfit := clearZero (fmtOpt tick td.intended_tp1),
            stopLoss := clearZero (fmtOpt tick td.intended_sl) }

/-- The attempt loop of `_verify_and_set_tpsl_for_position`
(`trading_bot.py:703-781`), fuel = remaining loop iterations
(`range(TPSL_VERIFICATION_RETRIES + 1)`), with the final fall-through
`return False` as the fuel-0 base case.  Per attempt: a no-longer-tracked
key returns `True`; an absent/zero-size position either returns `True`
(order still pending, no confirmed entry) or is handed to
`_handle_closed_position`; matching TP/SL return `True` with no call; a
mismatch issues one `set_trading_stop` call (`resp` is the response oracle,
indexed by attempt).  Success (including benign errors) returns `True` —
the code then writes the same intended values back into the store, a no-op
on the state; a genuine `retCode = 0` success also moves the exchange to
the set values.  Failure sleeps `TPSL_RETRY_DELAY_SECONDS` and retries
while `attempt < TPSL_VERIFICATION_RETRIES`, else appends the critical
Trade History alert and returns `False` without touching the store. -/
def verifyGo (tick : ℚ) (sym : String) (posIdx : ℕ) (now : String)
    (resp : ℕ → ApiResp) : ℕ → ℕ → VerifySt → Bool × VerifySt
  | 0, _, st => (false, st)
  | fuel+1, attempt, st =>
    match st.store with
    | none => (true, st)
    | some td =>
      if !st.exch.present || st.exch.size == 0 then
        if (td.main_order_status = "New" ∨ td.main_order_status = "Submitted" ∨
            td.main_order_status = "PartiallyFilled") ∧ td.entry_price = none
        then (true, st)
        else
          (true, { st with store := none,
                           hist := (handleClosedPos now
                             (some ⟨sym, posIdx, td.side, td.main_order_status,
                               td.last_known_size⟩) st.hist none).2 })
      else if tpslMatches tick td st.exch then (true, st)
      else
        let st1 := { st with calls := st.calls + 1 }
        if setStopOutcome (resp attempt) then
          match resp attempt with
          | ApiResp.apiOk _ =>
            (true, { st1 with exch := setOnExch tick td st1.exch })
          | _ => (true, st1)
        else
          if attempt < TPSL_VERIFICATION_RETRIES then
            verifyGo tick sym posIdx now resp fuel (attempt + 1)
              { st1 with sleeps := st1.sleeps ++ [TPSL_RETRY_DELAY_SECONDS] }
          else
            (false,
              { st1 with hist := addTradeToHistory now sym "System" "Alert"
                                   "N/A" none none "CRITICAL: TP/SL Set Fail"
                                   "0.00" (some ("PosIdx " ++ natStr posIdx))
                                   st1.hist })

/-- One call of `_verify_and_set_tpsl_for_position`. -/
def verifyPass (tick : ℚ) (sym : String) (posIdx : ℕ) (now : String)
    (resp : ℕ → ApiResp) (st : VerifySt) : Bool × VerifySt :=
  verifyGo tick sym posIdx now resp (TPSL_VERIFICATION_RETRIES + 1) 0 st

/-- The matching condition exactly as Claim C8 words it: exchange-reported
stop equal to the intended one after BOTH are rounded to the tick size,
null intended matching absent/`"0"` exchange value.  (Stated from the
claim, for comparison against the code'''s `tpslMatches`.) -/
def specRoundedMatch (tick : ℚ) (intended exch : Option ℚ) : Prop :=
  match intended, exch with
  | none, none => True
  | some i, some e => formatPrice tick i = formatPrice tick e
  | _, _ => False

/-! ## C4 — adoption of untracked exchange positions
`update_initial_trading_data`, step 2 (`trading_bot.py:591-619`). -/

/-- Numeric value of a `PyDec` (Python `float(...)`/comparison semantics,
modelled exactly). -/
def decVal (d : PyDec) : ℚ :=
  (if d.neg then -1 else 1) * (d.coeff : ℚ) * (10 : ℚ) ^ d.exp

/-- The `Decimal` whose string form is exactly `"0"`. -/
def decLitZero : PyDec := ⟨false, 0, 0⟩

/-- One raw position object from `get_open_positions`; string fields are
modelled structurally (`none` = key absent or empty string). -/
structure ApiPosRaw where
  symbol : String
  positionIdx : ℕ
  size : Option PyDec
  avgPrice : Option PyDec
  side : String
  stopLoss : Option PyDec
  takeProfit : Option PyDec
deriving Repr

/-- `Decimal(s) if s and s != "0" else None` (`trading_bot.py:600-606`). -/
def parseApiPrice (o : Option PyDec) : Option PyDec :=
  match o with
  | some d => if d = decLitZero then none else some d
  | none => none

/-- `Decimal(size_str) if size_str else Decimal(0)` (`trading_bot.py:604`). -/
def parseApiSize (o : Option PyDec) : PyDec := o.getD decLitZero

/-- `float(pos_data_api.get('size', '0'))` (`trading_bot.py:595`). -/
def apiSizeVal (o : Option PyDec) : ℚ := decVal (parseApiSize o)

/-- The adoption step for one exchange position (`trading_bot.py:592-619`):
positions with no symbol or non-positive size are skipped, as are keys
already in the store; otherwise a `TrackedPos` is synthesized with
`main_order_status = "Filled (External/Synced)"`, stops seeded from the
exchange report, and `breakeven_applied = false`. -/
def adoptUntracked (now : PyDateTime) (api : ApiPosRaw) (tracked : Bool) :
    Option TrackedPos :=
  if api.symbol = "" ∨ apiSizeVal api.size ≤ 0 then none
  else if tracked then none
  else
    some ⟨api.symbol, api.positionIdx, pyUpper api.side,
      parseApiPrice api.avgPrice, none, parseApiPrice api.stopLoss,
      parseApiPrice api.takeProfit, parseApiPrice api.takeProfit, false,
      none, "Filled (External/Synced)", [], some now,
      some (parseApiSize api.size)⟩

/-! ## C6 — minimum-quantity check and step flooring on entry
`_determine_total_entry_qty` (`trading_bot.py:1011-1043`),
`_format_quantity` (`trading_bot.py:329-346`) and the entry flow of
`execute_trade_from_signal` (`trading_bot.py:1099-1240`). -/

/-- The instrument data used by quantity formatting and the minimum check. -/
structure Instr where
  minOrderQty : ℚ
  qtyStep : Option ℚ
  qtyPrecision : ℕ
deriving Repr

/-- `_format_quantity` (`trading_bot.py:329-346`): floor the quantity to the
instrument step when a positive `qtyStep` is known, else quantize down to
the configured decimal precision. -/
def formatQuantity (instr : Instr) (q : ℚ) : ℚ :=
  match instr.qtyStep with
  | some s =>
    if 0 < s then (roundDownQ (q / s) : ℚ) * s
    else (roundDownQ (q * (10 : ℚ) ^ instr.qtyPrecision) : ℚ) /
      (10 : ℚ) ^ instr.qtyPrecision
  | none => (roundDownQ (q * (10 : ℚ) ^ instr.qtyPrecision) : ℚ) /
      (10 : ℚ) ^ instr.qtyPrecision

/-- `_determine_total_entry_qty` after the sizing strategy returned `calcQ`
(`trading_bot.py:1023-1043`): non-positive results abort silently; a result
below the instrument minimum aborts with a `"Fail: Qty < Min"` Trade History
entry.  The minimum check runs on the raw, un-floored quantity.
(`amountStr`/`priceStr` stand for the display strings `str(calcQ)` and
`str(signal.entry_price) or "Market"`; the claims do not inspect them.) -/
def determineQty (instr : Instr) (calcQ : ℚ)
    (sym sideStr amountStr priceStr now : String) (hist : List HEntry) :
    ℚ × List HEntry :=
  if calcQ ≤ 0 then (0, hist)
  else if calcQ < instr.minOrderQty then
    (0, addTradeToHistory now sym "System" sideStr amountStr (some priceStr)
      (some "N/A") "Fail: Qty < Min" "0.00" none hist)
  else (calcQ, hist)

/-- Outcome of the entry flow. -/
inductive ExecOutcome where
  | abortQty
  | abortFormatQty
  | abortLeverage
  | abortEntry
  | placed (qty : ℚ)
deriving DecidableEq, Repr

/-- The entry flow of `execute_trade_from_signal` from quantity
determination to order placement (`trading_bot.py:1076-1210`; the
close-old-position loop and UI/TP-SL seeding are outside this claim).  The
UI log block at line 1082 invokes `_determine_total_entry_qty` a first
time (appending its failure history entry again); the flow then determines
the quantity (line 1099), aborts on a non-positive result, floors it to the
instrument step (line 1104) checking only that the floored string is
positive, sets leverage, and places the order with the floored quantity.
`leverageOk`/`placeOk` are the gateway responses. -/
def entryQtyPipeline (instr : Instr) (calcQ : ℚ)
    (sym sideStr amountStr priceStr now : String)
    (leverageOk placeOk : Bool) (hist : List HEntry) :
    ExecOutcome × List HEntry :=
  let hlog :=
    (determineQty instr calcQ sym sideStr amountStr priceStr now hist).2
  let r := determineQty instr calcQ sym sideStr amountStr priceStr now hlog
  if r.1 ≤ 0 then (ExecOutcome.abortQty, r.2)
  else
    let fq := formatQuantity instr r.1
    if fq ≤ 0 then
      (ExecOutcome.abortFormatQty,
        addTradeToHistory now sym "System" sideStr amountStr (some priceStr)
          (some "N/A") "Fail: Qty Format Error" "0.00" none r.2)
    else if !leverageOk then
      (ExecOutcome.abortLeverage,
        addTradeToHistory now sym "System" sideStr amountStr (some priceStr)
          (some "N/A") "Fail: Leverage Set" "0.00" none r.2)
    else if !placeOk then
      (ExecOutcome.abortEntry,
        addTradeToHistory now sym "Market" sideStr amountStr (some priceStr)
          (some "N/A") "Fail: Entry" "0.00" none r.2)
    else
      (ExecOutcome.placed fq,
        addTradeToHistory now sym "Market" sideStr amountStr (some priceStr)
          (some "oid") "Entry Placed" "0.00" none r.2)

/-- Count of `"Fail: Qty < Min"` Trade History entries. -/
def countFailMin (hist : List HEntry) : ℕ :=
  hist.countP (fun e => e.status == "Fail: Qty < Min")

/-! ## C10 — trial parsing on trade-history reload
`_deserialize_value` (`trading_bot.py:149-166`),
`_load_trade_history_from_disk` (`trading_bot.py:258-276`) and
`_add_trade_to_history` (`trading_bot.py:280-296`). -/

/-- A JSON-decoded scalar as the deserializer sees it: a string, or the
`Decimal`/`datetime` it turns into. -/
inductive PVal where
  | pstr (s : List Char)
  | pdec (d : PyDec)
  | pdt (t : PyDateTime)
deriving DecidableEq, Repr

/-- `List.span Char.isDigit`. -/
def spanDigits (l : List Char) : List Char × List Char := l.span Char.isDigit

/-- Numeric value of a digit-character run. -/
def digitsVal (l : List Char) : ℕ := ofDigitsBE (l.map charDigitVal)

/-- The Python `Decimal` string constructor on the numeric grammar
`[sign] (digits [. digits] | . digits) [(e|E) [sign] digits]`
(`trading_bot.py:156`): coefficient digits are concatenated (leading zeros
stripped by the `ℕ` representation), the exponent is the explicit exponent
minus the fraction length.  Underscore/whitespace stripping and the special
values accepted by `Decimal` do not occur in this program'''s data and are
not modelled. -/
def pyDecParse (s : List Char) : Option PyDec :=
  let sgn : Bool × List Char :=
    match s with
    | '-' :: t => (true, t)
    | '+' :: t => (false, t)
    | _ => (false, s)
  let ints := spanDigits sgn.2
  let fra : List Char × List Char :=
    match ints.2 with
    | '.' :: t => spanDigits t
    | _ => ([], ints.2)
  if ints.1.isEmpty && fra.1.isEmpty then none
  else
    match fra.2 with
    | [] => some ⟨sgn.1, digitsVal (ints.1 ++ fra.1), -(fra.1.length : ℤ)⟩
    | e :: t =>
      if e = 'e' ∨ e = 'E' then
        let esgn : Bool × List Char :=
          match t with
          | '-' :: u => (true, u)
          | '+' :: u => (false, u)
          | _ => (false, t)
        let eds := spanDigits esgn.2
        if eds.1.isEmpty || !eds.2.isEmpty then none
        else
          some ⟨sgn.1, digitsVal (ints.1 ++ fra.1),
            (if esgn.1 then -(digitsVal eds.1 : ℤ) else (digitsVal eds.1 : ℤ))
              - (fra.1.length : ℤ)⟩
      else none

/-- Gregorian leap year. -/
def isLeap (y : ℕ) : Bool := (y % 4 == 0 && y % 100 != 0) || y % 400 == 0

/-- Days in a month. -/
def daysInMonth (y m : ℕ) : ℕ :=
  if m = 2 then (if isLeap y then 29 else 28)
  else if m = 4 ∨ m = 6 ∨ m = 9 ∨ m = 11 then 30
  else 31

/-- Two digit characters as a number. -/
def twoDigits (a b : Char) : Option ℕ :=
  if a.isDigit && b.isDigit then some (10 * charDigitVal a + charDigitVal b)
  else none

/-- The time part of `datetime.fromisoformat`
(`HH[:MM[:SS[.fff[fff]]]]`, Python 3.7-3.10 grammar): hour, minute, second,
microsecond. -/
def parseTimePart : List Char → Option (ℕ × ℕ × ℕ × ℕ)
  | [h1, h2] => (twoDigits h1 h2).bind fun h =>
      if h ≤ 23 then some (h, 0, 0, 0) else none
  | h1 :: h2 :: ':' :: m1 :: m2 :: rest =>
    (twoDigits h1 h2).bind fun h =>
    (twoDigits m1 m2).bind fun mi =>
    if h ≤ 23 ∧ mi ≤ 59 then
      match rest with
      | [] => some (h, mi, 0, 0)
      | ':' :: s1 :: s2 :: rest2 =>
        (twoDigits s1 s2).bind fun sec =>
        if sec ≤ 59 then
          match rest2 with
          | [] => some (h, mi, sec, 0)
          | '.' :: fs =>
            if fs.length = 6 ∧ fs.all Char.isDigit then
              some (h, mi, sec, digitsVal fs)
            else if fs.length = 3 ∧ fs.all Char.isDigit then
              some (h, mi, sec, 1000 * digitsVal fs)
            else none
          | _ => none
        else none
      | _ => none
    else none
  | _ => none

/-- `datetime.fromisoformat` (`trading_bot.py:159`) on naive timestamps,
Python 3.7-3.10 grammar: `YYYY-MM-DD[<sep>HH[:MM[:SS[.ffffff]]]]` with any
single separator character and real calendar validation.  Offset-aware
strings (which cannot occur in the strings this bot writes) are not
modelled and parse to `none`. -/
def pyIsoParse (s : List Char) : Option PyDateTime :=
  match s with
  | y1 :: y2 :: y3 :: y4 :: '-' :: m1 :: m2 :: '-' :: d1 :: d2c :: rest =>
    if y1.isDigit && y2.isDigit && y3.isDigit && y4.isDigit then
      (twoDigits m1 m2).bind fun mo =>
      (twoDigits d1 d2c).bind fun dd =>
      if 1 ≤ digitsVal [y1, y2, y3, y4] ∧ 1 ≤ mo ∧ mo ≤ 12 ∧ 1 ≤ dd ∧
          dd ≤ daysInMonth (digitsVal [y1, y2, y3, y4]) mo then
        match rest with
        | [] => some ⟨digitsVal [y1, y2, y3, y4], mo, dd, 0, 0, 0, 0⟩
        | _sep :: timecs =>
          (parseTimePart timecs).map fun r =>
            ⟨digitsVal [y1, y2, y3, y4], mo, dd, r.1, r.2.1, r.2.2.1, r.2.2.2⟩
      else none
    else none
  | _ => none

/-- `value.replace("Z", "+00:00")` (`trading_bot.py:159`). -/
def replaceZ (s : List Char) : List Char :=
  s.foldr
    (fun c acc =>
      if c = 'Z' then '+' :: '0' :: '0' :: ':' :: '0' :: '0' :: acc
      else c :: acc)
    []

/-- The string branch of `_deserialize_value` (`trading_bot.py:154-161`):
try `Decimal`, then `datetime.fromisoformat` on the `Z`-replaced string,
else keep the string. -/
def trialParse (s : List Char) : PVal :=
  match pyDecParse s with
  | some d => PVal.pdec d
  | none =>
    match pyIsoParse (replaceZ s) with
    | some t => PVal.pdt t
    | none => PVal.pstr s

/-- `_deserialize_value` on one scalar. -/
def deserializeVal (v : PVal) : PVal :=
  match v with
  | PVal.pstr s => trialParse s
  | v => v

/-- Zero-padded duodigit render. -/
def pad2 (n : ℕ) : List Char := [digChar (n / 10 % 10), digChar (n % 10)]

/-- Zero-padded four-digit render. -/
def pad4 (n : ℕ) : List Char :=
  [digChar (n / 1000 % 10), digChar (n / 100 % 10), digChar (n / 10 % 10),
    digChar (n % 10)]

/-- Zero-padded six-digit render. -/
def pad6 (n : ℕ) : List Char :=
  [digChar (n / 100000 % 10), digChar (n / 10000 % 10),
    digChar (n / 1000 % 10), digChar (n / 100 % 10), digChar (n / 10 % 10),
    digChar (n % 10)]

/-- `datetime.isoformat()` as characters. -/
def isoChars (t : PyDateTime) : List Char :=
  pad4 t.year ++ '-' :: pad2 t.month ++ '-' :: pad2 t.day ++
    'T' :: pad2 t.hour ++ ':' :: pad2 t.minute ++ ':' :: pad2 t.second ++
    (if t.microsecond = 0 then [] else '.' :: pad6 t.microsecond)

/-- `now.strftime("%Y-%m-%d %H:%M:%S")` (`trading_bot.py:284`). -/
def strftimeChars (t : PyDateTime) : List Char :=
  pad4 t.year ++ '-' :: pad2 t.month ++ '-' :: pad2 t.day ++
    ' ' :: pad2 t.hour ++ ':' :: pad2 t.minute ++ ':' :: pad2 t.second

/-- `_serialize_value` on one scalar (`trading_bot.py:137-147`): `Decimal`
to its `str`, `datetime` to its `isoformat`, strings unchanged. -/
def serializeVal (v : PVal) : PVal :=
  match v with
  | PVal.pdec d => PVal.pstr (sciChars (decToSci d))
  | PVal.pdt t => PVal.pstr (isoChars t)
  | s => s

/-- One trade-history record at the value level (every field a scalar). -/
structure HistV where
  time : PVal
  symbol : PVal
  htype : PVal
  amount : PVal
  price : PVal
  order_id : PVal
  status : PVal
  pnl : PVal
  notes : PVal
deriving DecidableEq, Repr

/-- `_save_trade_history_to_disk` on one record: `_serialize_value` on every
field. -/
def serializeHistV (e : HistV) : HistV :=
  ⟨serializeVal e.time, serializeVal e.symbol, serializeVal e.htype,
    serializeVal e.amount, serializeVal e.price, serializeVal e.order_id,
    serializeVal e.status, serializeVal e.pnl, serializeVal e.notes⟩

/-- `_load_trade_history_from_disk` on one record: `_deserialize_value` on
every field (the dict branch of `_deserialize_value` recurses into each
value; keys are untouched). -/
def loadHistV (e : HistV) : HistV :=
  ⟨deserializeVal e.time, deserializeVal e.symbol, deserializeVal e.htype,
    deserializeVal e.amount, deserializeVal e.price,
    deserializeVal e.order_id, deserializeVal e.status, deserializeVal e.pnl,
    deserializeVal e.notes⟩

/-! ## Theorems -/

/-- Claim C5: in risk-percentage sizing mode the computed quantity equals
`availableBalance * riskPercent/100 / |entry - stop|`, and the computation
fails closed (returns zero) whenever the entry price or stop-loss is missing
or non-positive, or the direction is inconsistent with their ordering
(LONG needs entry > stop, SHORT needs entry < stop). -/
theorem c5_risk_sizing (b r e s : ℚ) (sd : SigSide) :
    (0 < b → 0 < e → 0 < s →
      (sd = SigSide.long → s < e) → (sd = SigSide.short → e < s) →
      calcRiskQty b r ⟨some e, some s, sd⟩ = b * (r / 100) / |e - s|)
    ∧ (∀ sig : RiskSignal, sig.entry_price = none → calcRiskQty b r sig = 0)
    ∧ (∀ sig : RiskSignal, sig.stop_loss = none → calcRiskQty b r sig = 0)
    ∧ (e ≤ 0 → calcRiskQty b r ⟨some e, some s, sd⟩ = 0)
    ∧ (s ≤ 0 → 0 < e → calcRiskQty b r ⟨some e, some s, sd⟩ = 0)
    ∧ (sd = SigSide.long → e ≤ s → calcRiskQty b r ⟨some e, some s, sd⟩ = 0)
    ∧ (sd = SigSide.short → s ≤ e → calcRiskQty b r ⟨some e, some s, sd⟩ = 0) := by
  refine ⟨?_, ?_, ?_, ?_, ?_, ?_, ?_⟩
  · intro hb he hs hl hsh
    have hne : e ≠ s := by
      cases sd with
      | long => exact ne_of_gt (hl rfl)
      | short => exact ne_of_lt (hsh rfl)
    have habs : 0 < |e - s| := abs_pos.mpr (sub_ne_zero.mpr hne)
    simp only [calcRiskQty]
    rw [if_neg (not_le.mpr hb), if_neg (not_le.mpr he), if_neg (not_le.mpr hs)]
    rw [if_neg, if_neg, if_neg (not_le.mpr habs)]
    · rintro ⟨hsd, hle⟩
      exact absurd (hsh hsd) (not_lt.mpr hle)
    · rintro ⟨hsd, hle⟩
      exact absurd (hl hsd) (not_lt.mpr hle)
  · intro sig hnone
    simp only [calcRiskQty, hnone]
    split <;> rfl
  · intro sig hnone
    simp only [calcRiskQty]
    split
    · rfl
    · cases hep : sig.entry_price with
      | none => rfl
      | some e₀ =>
        simp only [hnone]
        split <;> rfl
  · intro he
    simp [calcRiskQty, he]
  · intro hs he
    simp [calcRiskQty, hs, not_le.mpr he]
  · intro hsd hle
    subst hsd
    simp [calcRiskQty, hle]
  · intro hsd hle
    subst hsd
    simp [calcRiskQty, hle]

/-- Witness for C5, the spec's worked example: balance 1000, risk 1.0 %,
entry 100, stop 95 gives quantity 2 before step rounding. -/
theorem c5_risk_sizing_witness :
    calcRiskQty 1000 1 ⟨some 100, some 95, SigSide.long⟩ = 2 := by
  have h := (c5_risk_sizing 1000 1 100 95 SigSide.long).1
    (by norm_num) (by norm_num) (by norm_num)
    (fun _ => by norm_num) (fun hc => by cases hc)
  rw [h]
  norm_num

theorem entrySync_flag (inp : BeInp) (p : BePos) :
    (entrySync inp p).breakeven_applied = p.breakeven_applied := by
  unfold entrySync
  cases inp.avgPrice <;> rfl

theorem entrySync_sl (inp : BeInp) (p : BePos) :
    (entrySync inp p).intended_sl = p.intended_sl := by
  unfold entrySync
  cases inp.avgPrice <;> rfl

theorem dropTrig_of_applied (en : Bool) (ae : Option ℚ) (sz : ℚ) (p : BePos) :
    dropTrig en true ae sz p = p := by
  simp [dropTrig]

theorem tp1Trig_of_applied (en : Bool) (tick : ℚ) (ae tp1 : Option ℚ)
    (side : String) (mp : Option ℚ) (p : BePos) :
    tp1Trig en true tick ae tp1 side mp p = p := by
  simp [tp1Trig]

theorem beStep_of_applied (cfg : BeCfg) (tick : ℚ) (inp : BeInp) (p : BePos)
    (h : p.breakeven_applied = true) :
    beStep cfg tick inp p = entrySync inp p := by
  simp only [beStep, entrySync_flag, h, dropTrig_of_applied, tp1Trig_of_applied]

theorem truthyQ_eq_true (o : Option ℚ) :
    truthyQ o = true ↔ ∃ x, o = some x ∧ x ≠ 0 := by
  cases o with
  | none => simp [truthyQ]
  | some x => simp [truthyQ]

theorem dropTrig_cases (en : Bool) (ae : Option ℚ) (sz : ℚ) (p : BePos)
    (hp : p.breakeven_applied = false) :
    ((dropTrig en false ae sz p).breakeven_applied = false ∧
      (dropTrig en false ae sz p).intended_sl = p.intended_sl) ∨
    ((dropTrig en false ae sz p).breakeven_applied = true ∧
      (dropTrig en false ae sz p).intended_sl = ae ∧ truthyQ ae = true) := by
  unfold dropTrig
  by_cases hg : (en && !false && truthyQ ae) = true
  · rw [if_pos hg]
    by_cases hlt : sz < p.last_known_size.getD sz
    · right
      rw [if_pos hlt]
      refine ⟨rfl, rfl, ?_⟩
      have hg2 : en = true ∧ truthyQ ae = true := by simpa using hg
      exact hg2.2
    · left
      rw [if_neg hlt]
      exact ⟨hp, rfl⟩
  · rw [if_neg hg]
    exact Or.inl ⟨hp, rfl⟩

theorem tp1Trig_cases (en : Bool) (tick : ℚ) (ae tp1 : Option ℚ)
    (side : String) (mp : Option ℚ) (p : BePos) :
    tp1Trig en false tick ae tp1 side mp p = p ∨
    (truthyQ ae = true ∧
      (((tp1Trig en false tick ae tp1 side mp p).breakeven_applied = true ∧
        (tp1Trig en false tick ae tp1 side mp p).intended_sl = ae) ∨
       ((tp1Trig en false tick ae tp1 side mp p).breakeven_applied = true ∧
        (tp1Trig en false tick ae tp1 side mp p).intended_sl = p.intended_sl ∧
        truthyQ p.intended_sl = true ∧
        formatPrice tick (p.intended_sl.getD 0) =
          formatPrice tick (ae.getD 0)))) := by
  unfold tp1Trig
  by_cases hg : (en && !false && truthyQ tp1 && truthyQ ae &&
      decide (0 < ae.getD 0)) = true
  · rw [if_pos hg]
    have hae : truthyQ ae = true := by
      simp only [Bool.and_eq_true] at hg
      exact hg.1.2
    by_cases hmp : truthyQ mp = true
    · rw [if_pos hmp]
      by_cases hhit : ((side == "BUY" && decide (tp1.getD 0 ≤ mp.getD 0)) ||
          (side == "SELL" && decide (mp.getD 0 ≤ tp1.getD 0))) = true
      · rw [if_pos hhit]
        by_cases hcur : (if truthyQ p.intended_sl then
            some (formatPrice tick (p.intended_sl.getD 0)) else none) =
            some (formatPrice tick (ae.getD 0))
        · rw [if_pos hcur]
          right
          refine ⟨hae, Or.inr ⟨rfl, rfl, ?_, ?_⟩⟩
          · by_contra hts
            rw [if_neg hts] at hcur
            exact Option.noConfusion hcur
          · by_cases hts : truthyQ p.intended_sl = true
            · rw [if_pos hts] at hcur
              exact Option.some.inj hcur
            · rw [if_neg hts] at hcur
              exact absurd hcur (Option.noConfusion ·)
        · rw [if_neg hcur]
          exact Or.inr ⟨hae, Or.inl ⟨rfl, rfl⟩⟩
      · rw [if_neg hhit]
        exact Or.inl rfl
    · rw [if_neg hmp]
      exact Or.inl rfl
  · rw [if_neg hg]
    exact Or.inl rfl

theorem beTransitionAux (en1 en2 : Bool) (tick sz : ℚ) (tp1v : Option ℚ)
    (side : String) (mp : Option ℚ) (p1 : BePos)
    (hflag1 : p1.breakeven_applied = false)
    (htr : (tp1Trig en2 false tick (actualEntry p1) tp1v side mp
      (dropTrig en1 false (actualEntry p1) sz p1)).breakeven_applied = true) :
    ∃ e s, actualEntry p1 = some e ∧ e ≠ 0 ∧
      (tp1Trig en2 false tick (actualEntry p1) tp1v side mp
        (dropTrig en1 false (actualEntry p1) sz p1)).intended_sl = some s ∧
      formatPrice tick s = formatPrice tick e := by
  rcases dropTrig_cases en1 (actualEntry p1) sz p1 hflag1 with
    ⟨hf3, hs3⟩ | ⟨hf3, hs3, hta⟩
  · rcases tp1Trig_cases en2 tick (actualEntry p1) tp1v side mp
        (dropTrig en1 false (actualEntry p1) sz p1) with hid | ⟨hta, hcase⟩
    · rw [hid] at htr
      rw [hf3] at htr
      exact Bool.noConfusion htr
    · obtain ⟨e, hesome, hene⟩ := (truthyQ_eq_true _).mp hta
      rcases hcase with ⟨_, hsl⟩ | ⟨_, hsl, hts, hfmt⟩
      · exact ⟨e, e, hesome, hene, by rw [hsl, hesome], rfl⟩
      · obtain ⟨s, hssome, hsne⟩ := (truthyQ_eq_true _).mp hts
        refine ⟨e, s, hesome, hene, by rw [hsl, hssome], ?_⟩
        rw [hssome, hesome] at hfmt
        simpa using hfmt
  · obtain ⟨e, hesome, hene⟩ := (truthyQ_eq_true _).mp hta
    rcases tp1Trig_cases en2 tick (actualEntry p1) tp1v side mp
        (dropTrig en1 false (actualEntry p1) sz p1) with hid | ⟨_, hcase⟩
    · rw [hid]
      exact ⟨e, e, hesome, hene, by rw [hs3, hesome], rfl⟩
    · rcases hcase with ⟨_, hsl⟩ | ⟨_, hsl, hts, hfmt⟩
      · exact ⟨e, e, hesome, hene, by rw [hsl, hesome], rfl⟩
      · obtain ⟨s, hssome, hsne⟩ := (truthyQ_eq_true _).mp hts
        refine ⟨e, s, hesome, hene, by rw [hsl, hssome], ?_⟩
        rw [hssome, hesome] at hfmt
        simpa using hfmt

/-- Claim C1 (amended): for every tracked position, `breakeven_applied` is
monotone (never reset to `false` by the maintenance pass), and once `true`
neither the size-drop trigger nor the TP1-crossing trigger changes
`intended_sl` again, over any number of passes.  At the false-to-true
transition the promotion entry price `e` (`entry_price` after the exchange
backfill, else `signal_entry_price`) exists, and the resulting `intended_sl`
is a stop `s` whose tick-rounded value equals the tick-rounded `e` — it is
`e` itself in the branches that move the stop, but when the tick-rounded
previous stop already equals the tick-rounded entry, the flag is set with
`intended_sl` left unchanged (`trading_bot.py:881-884`), so exact equality
with the entry price does not hold in general. -/
theorem c1_breakeven_promotion (cfg : BeCfg) (tick : ℚ) (inp : BeInp)
    (l : List BeInp) (p : BePos) :
    (p.breakeven_applied = true →
      (beStep cfg tick inp p).breakeven_applied = true ∧
      (beStep cfg tick inp p).intended_sl = p.intended_sl)
    ∧ (p.breakeven_applied = true →
      (beRun cfg tick l p).breakeven_applied = true ∧
      (beRun cfg tick l p).intended_sl = p.intended_sl)
    ∧ (p.breakeven_applied = false →
      (beStep cfg tick inp p).breakeven_applied = true →
      ∃ e s, actualEntry (entrySync inp p) = some e ∧ e ≠ 0 ∧
        (beStep cfg tick inp p).intended_sl = some s ∧
        formatPrice tick s = formatPrice tick e) := by
  refine ⟨?_, ?_, ?_⟩
  · intro hp
    rw [beStep_of_applied cfg tick inp p hp]
    exact ⟨(entrySync_flag inp p).trans hp, entrySync_sl inp p⟩
  · intro hp
    induction l generalizing p with
    | nil => exact ⟨hp, rfl⟩
    | cons i t ih =>
      have h1 : (beStep cfg tick i p).breakeven_applied = true ∧
          (beStep cfg tick i p).intended_sl = p.intended_sl := by
        rw [beStep_of_applied cfg tick i p hp]
        exact ⟨(entrySync_flag i p).trans hp, entrySync_sl i p⟩
      have h2 := ih (beStep cfg tick i p) h1.1
      exact ⟨h2.1, h2.2.trans h1.2⟩
  · intro hp htr
    have hflag1 : (entrySync inp p).breakeven_applied = false :=
      (entrySync_flag inp p).trans hp
    have hbe : beStep cfg tick inp p =
        tp1Trig cfg.enable_be_on_tp1 false tick
          (actualEntry (entrySync inp p)) (entrySync inp p).tp1_price
          (pyUpper (entrySync inp p).side) inp.marketPrice
          (dropTrig cfg.enable_be_on_size_drop false
            (actualEntry (entrySync inp p)) inp.size (entrySync inp p)) := by
      simp only [beStep, hflag1]
    rw [hbe] at htr ⊢
    exact beTransitionAux _ _ tick inp.size _ _ inp.marketPrice _ hflag1 htr

/-- Counterexample to Claim C1 as stated: with the TP1 trigger enabled,
entry 100.2, previous stop 100.5 and tick size 1, the market crossing TP1
flips `breakeven_applied` from `false` to `true`, but `intended_sl` stays at
100.5 — it is not set to the promotion entry price 100.2 (the two merely
round to the same tick 100). -/
theorem c1_counterexample :
    (⟨"BUY", some (501/5), none, some (201/2), some 101, false, some 1⟩ :
      BePos).breakeven_applied = false ∧
    (beStep ⟨false, true⟩ 1 ⟨none, 1, some 102⟩
      ⟨"BUY", some (501/5), none, some (201/2), some 101, false,
        some 1⟩).breakeven_applied = true ∧
    actualEntry (entrySync ⟨none, 1, some 102⟩
      ⟨"BUY", some (501/5), none, some (201/2), some 101, false, some 1⟩) =
      some (501/5) ∧
    (beStep ⟨false, true⟩ 1 ⟨none, 1, some 102⟩
      ⟨"BUY", some (501/5), none, some (201/2), some 101, false,
        some 1⟩).intended_sl ≠ some (501/5) := by
  have hU : pyUpper "BUY" = "BUY" := by decide
  refine ⟨rfl, ?_, ?_, ?_⟩ <;>
    norm_num [beStep, entrySync, actualEntry, pyOrQ, truthyQ, dropTrig,
      tp1Trig, formatPrice, roundDownQ, hU]

/-- Witness for C1: the amended theorem applied to a concrete position with
the flag already set. -/
theorem c1_breakeven_promotion_witness :
    (beStep ⟨true, true⟩ 1 ⟨none, 1, none⟩
      ⟨"BUY", some 100, none, some 99, some 101, true, some 2⟩).breakeven_applied
        = true ∧
    (beStep ⟨true, true⟩ 1 ⟨none, 1, none⟩
      ⟨"BUY", some 100, none, some 99, some 101, true, some 2⟩).intended_sl =
        some 99 := by
  have h := (c1_breakeven_promotion ⟨true, true⟩ 1 ⟨none, 1, none⟩ []
    ⟨"BUY", some 100, none, some 99, some 101, true, some 2⟩).1 rfl
  exact ⟨h.1, h.2.trans rfl⟩

theorem ofDigitsBE_decDigits (c : ℕ) : ofDigitsBE (decDigits c) = c := by
  unfold ofDigitsBE decDigits
  by_cases h : c = 0
  · simp [h, Nat.ofDigits]
  · rw [if_neg h, List.reverse_reverse, Nat.ofDigits_digits]

theorem decDigits_ne_nil (c : ℕ) : decDigits c ≠ [] := by
  unfold decDigits
  by_cases h : c = 0
  · simp [h]
  · rw [if_neg h]
    simp [Nat.digits_ne_nil_iff_ne_zero, h]

theorem ofDigits_replicate_zero (m : ℕ) :
    Nat.ofDigits 10 (List.replicate m 0) = 0 := by
  induction m with
  | zero => simp [Nat.ofDigits]
  | succ k ih => simp [List.replicate_succ, Nat.ofDigits_cons, ih]

theorem ofDigitsBE_zeros_append (j : ℕ) (l : List ℕ) :
    ofDigitsBE (List.replicate j 0 ++ l) = ofDigitsBE l := by
  unfold ofDigitsBE
  rw [List.reverse_append, List.reverse_replicate, Nat.ofDigits_append,
    ofDigits_replicate_zero]
  simp

/-- `str` then `Decimal` is the identity on finite decimals: the string form
of a `Decimal` parses back to the same sign, coefficient and exponent. -/
theorem sciToDec_decToSci (d : PyDec) : sciToDec (decToSci d) = d := by
  obtain ⟨neg, c, e⟩ := d
  unfold decToSci
  simp only
  by_cases hplain : e ≤ 0 ∧ -6 ≤ e + (decDigits c).length - 1
  · rw [if_pos hplain]
    by_cases he : e = 0
    · subst he
      rw [if_pos rfl]
      simp [sciToDec, ofDigitsBE_decDigits]
    · rw [if_neg he]
      by_cases hk : (-e).toNat < (decDigits c).length
      · rw [if_pos hk]
        simp only [sciToDec, List.take_append_drop, ofDigitsBE_decDigits,
          List.length_drop, PyDec.mk.injEq, true_and]
        omega
      · rw [if_neg hk]
        simp only [sciToDec, PyDec.mk.injEq, true_and]
        constructor
        · have hcons : (0 : ℕ) ::
              (List.replicate ((-e).toNat - (decDigits c).length) 0 ++
                decDigits c) =
              List.replicate ((-e).toNat - (decDigits c).length + 1) 0 ++
                decDigits c := by
            simp [List.replicate_succ]
          calc ofDigitsBE ([0] ++
                (List.replicate ((-e).toNat - (decDigits c).length) 0 ++
                  decDigits c))
              = ofDigitsBE
                  (List.replicate ((-e).toNat - (decDigits c).length + 1) 0 ++
                    decDigits c) := by rw [List.singleton_append, hcons]
            _ = ofDigitsBE (decDigits c) := ofDigitsBE_zeros_append _ _
            _ = c := ofDigitsBE_decDigits c
        · simp only [List.length_append, List.length_replicate]
          omega
  · rw [if_neg hplain]
    simp only [sciToDec, PyDec.mk.injEq, true_and]
    have hlen : 1 ≤ (decDigits c).length :=
      List.length_pos.mpr (decDigits_ne_nil c)
    refine ⟨ofDigitsBE_decDigits c, ?_⟩
    push_cast [hlen]
    omega

/-- `isoformat` then `fromisoformat` is the identity on naive datetimes. -/
theorem isoToDt_dtToIso (t : PyDateTime) : isoToDt (dtToIso t) = t := by
  obtain ⟨y, mo, d, h, mi, s, micro⟩ := t
  unfold dtToIso isoToDt
  by_cases hm : micro = 0
  · simp [hm]
  · simp [hm]

theorem digChar_spec (d : ℕ) (hd : d < 10) :
    (digChar d).isDigit = true ∧ digChar d ≠ '_' ∧
      charDigitVal (digChar d) = d := by
  interval_cases d <;> exact ⟨by decide, by decide, by decide⟩

theorem decDigits_lt (c : ℕ) : ∀ x ∈ decDigits c, x < 10 := by
  intro x hx
  unfold decDigits at hx
  by_cases h : c = 0
  · rw [if_pos h] at hx
    simp at hx
    omega
  · rw [if_neg h, List.mem_reverse] at hx
    exact Nat.digits_lt_base (by norm_num) hx

theorem natChars_ne_nil (n : ℕ) : natChars n ≠ [] := by
  unfold natChars
  intro h
  exact decDigits_ne_nil n (List.map_eq_nil_iff.mp h)

theorem underscore_not_mem_natChars (n : ℕ) : '_' ∉ natChars n := by
  intro h
  unfold natChars at h
  obtain ⟨d, hd, heq⟩ := List.mem_map.mp h
  exact ((digChar_spec d (decDigits_lt n d hd)).2.1) heq

theorem charsToNat_natChars (n : ℕ) : charsToNat (natChars n) = some n := by
  unfold charsToNat
  rw [if_pos]
  · congr 1
    unfold natChars
    rw [List.map_map]
    have hmap : (decDigits n).map (charDigitVal ∘ digChar) = decDigits n := by
      refine List.map_congr_left ?_ |>.trans (List.map_id _)
      intro d hd
      exact (digChar_spec d (decDigits_lt n d hd)).2.2
    rw [hmap, ofDigitsBE_decDigits]
  · refine ⟨natChars_ne_nil n, ?_⟩
    apply List.all_eq_true.mpr
    intro c hc
    unfold natChars at hc
    obtain ⟨d, hd, heq⟩ := List.mem_map.mp hc
    rw [← heq]
    exact (digChar_spec d (decDigits_lt n d hd)).1

theorem rsplitLast_of_not_mem (l : List Char) (h : '_' ∉ l) :
    rsplitLast l = none := by
  induction l with
  | nil => rfl
  | cons c rest ih =>
    have hc : c ≠ '_' := fun hcc => h (hcc ▸ List.mem_cons_self c rest)
    have hrest : '_' ∉ rest := fun hr => h (List.mem_cons_of_mem c hr)
    unfold rsplitLast
    rw [ih hrest]
    simp [hc]

theorem rsplitLast_append (a b : List Char) (h : '_' ∉ b) :
    rsplitLast (a ++ '_' :: b) = some (a, b) := by
  induction a with
  | nil =>
    rw [List.nil_append]
    unfold rsplitLast
    rw [rsplitLast_of_not_mem b h]
    simp
  | cons c rest ih =>
    rw [List.cons_append]
    unfold rsplitLast
    rw [ih]

theorem parseKey_keyChars (sym : String) (idx : ℕ) :
    parseKey (keyChars sym idx) = some (sym, idx) := by
  unfold parseKey keyChars
  rw [rsplitLast_append sym.data (natChars idx) (underscore_not_mem_natChars idx)]
  simp [charsToNat_natChars]

theorem optDec_roundtrip (o : Option PyDec) :
    (o.map decToSci).map sciToDec = o := by
  cases o <;> simp [sciToDec_decToSci]

theorem optDt_roundtrip (o : Option PyDateTime) :
    (o.map dtToIso).map isoToDt = o := by
  cases o <;> simp [isoToDt_dtToIso]

theorem deserializePos_serializePos (p : TrackedPos) :
    deserializePos (serializePos p) = p := by
  unfold serializePos deserializePos
  simp only [optDec_roundtrip, optDt_roundtrip]

/-- Claim C7: persist-then-reload round-trip for the position store — for
every set of tracked positions, serializing to the state file and loading it
back yields a store field-for-field equal to the original; the `Decimal`
fields and the `last_update_time` timestamp are recovered exactly, and each
`(symbol, slot)` key is reconstructed from its `"SYMBOL_SLOT"` string form. -/
theorem c7_persist_roundtrip (l : List ((String × ℕ) × TrackedPos)) :
    loadStore (saveStore l) = l := by
  induction l with
  | nil => rfl
  | cons e t ih =>
    obtain ⟨⟨sym, idx⟩, p⟩ := e
    unfold saveStore loadStore
    rw [List.map_cons, List.filterMap_cons]
    simp only [parseKey_keyChars, Option.map_some', deserializePos_serializePos]
    unfold saveStore at ih
    unfold loadStore at ih
    rw [ih]

/-- Claim C2: for a tracked position whose main order status is `Filled`,
a reconciliation poll reporting the position absent or with size zero removes
the key from the store and appends exactly one Trade History record whose
status contains `"Position Closed"`, the write and the removal happening in
the same step; a key that is not tracked produces no removal and no record
(no removal without a history entry, no duplicate entry for one closure). -/
theorem c2_closure_single_history (now : String) (pd : Pos2)
    (hist : List HEntry) (apiSize : Option ℚ)
    (hstatus : pd.main_order_status = "Filled")
    (habsent : apiSize = none ∨ apiSize = some 0) :
    (periodicCloseStep now (some pd) hist apiSize).1 = none ∧
    (∃ entry,
      (periodicCloseStep now (some pd) hist apiSize).2 = hist ++ [entry] ∧
      strContains "Position Closed" entry.status = true) ∧
    countClosed (periodicCloseStep now (some pd) hist apiSize).2 =
      countClosed hist + 1 ∧
    periodicCloseStep now none hist apiSize = (none, hist) := by
  have hstep : periodicCloseStep now (some pd) hist apiSize =
      handleClosedPos now (some pd) hist none := by
    unfold periodicCloseStep
    rcases habsent with h | h <;> rw [h] <;> simp [hstatus]
  have hval : handleClosedPos now (some pd) hist none =
      (none, hist ++ [⟨now, pd.symbol,
        pyCap pd.side ++ " " ++ pyCap "System Close",
        strOfOptDec pd.last_known_size, pyStrOr (some "N/A") "Market",
        pyStrOr none "N/A",
        "Position Closed (" ++ "Position Closed (Reason Undetermined)" ++ ")",
        "N/A", pyStrOr (some ("PosIdx " ++ natStr pd.position_idx)) ""⟩]) :=
    rfl
  have hcontains : strContains "Position Closed"
      ("Position Closed (" ++ "Position Closed (Reason Undetermined)" ++ ")") =
      true := by decide
  rw [hstep, hval]
  refine ⟨rfl, ⟨_, rfl, hcontains⟩, ?_, ?_⟩
  · unfold countClosed
    rw [List.countP_append]
    simp [List.countP_cons]
    decide
  · unfold periodicCloseStep
    rcases habsent with h | h <;> rw [h]

/-- Witness for C2 at a concrete tracked position and an empty-poll result. -/
theorem c2_closure_single_history_witness :
    (periodicCloseStep "2025-06-01 12:00:00"
      (some ⟨"BTCUSDT", 0, "BUY", "Filled", none⟩) [] none).1 = none ∧
    (∃ entry, (periodicCloseStep "2025-06-01 12:00:00"
      (some ⟨"BTCUSDT", 0, "BUY", "Filled", none⟩) [] none).2 = [] ++ [entry] ∧
      strContains "Position Closed" entry.status = true) ∧
    countClosed (periodicCloseStep "2025-06-01 12:00:00"
      (some ⟨"BTCUSDT", 0, "BUY", "Filled", none⟩) [] none).2 =
      countClosed [] + 1 ∧
    periodicCloseStep "2025-06-01 12:00:00" none [] none = (none, []) := by
  exact c2_closure_single_history "2025-06-01 12:00:00"
    ⟨"BTCUSDT", 0, "BUY", "Filled", none⟩ [] none rfl (Or.inl rfl)

theorem verifyPass_of_matches (tick : ℚ) (sym : String) (posIdx : ℕ)
    (now : String) (resp : ℕ → ApiResp) (st : VerifySt) (td : VerifyPos)
    (hstore : st.store = some td) (hpres : st.exch.present = true)
    (hsz : (st.exch.size == 0) = false)
    (hm : tpslMatches tick td st.exch = true) :
    verifyPass tick sym posIdx now resp st = (true, st) := by
  unfold verifyPass verifyGo
  rw [hstore]
  simp [hpres, hsz, hm]

theorem matchClear (o : Option ℚ) :
    (pyEqOptQ o (clearZero o) || (!truthyQ o && !truthyQ (clearZero o))) =
      true := by
  cases o with
  | none => rfl
  | some x =>
    by_cases hx : x = 0
    · simp [clearZero, hx, pyEqOptQ, truthyQ]
    · simp [clearZero, hx, pyEqOptQ, truthyQ]

theorem tpslMatches_setOnExch (tick : ℚ) (td : VerifyPos) (ex : ExchState) :
    tpslMatches tick td (setOnExch tick td ex) = true := by
  simp [tpslMatches, setOnExch, matchClear]

/-- Claim C3: on a persistent non-benign set-stops failure, the engine makes
the initial attempt plus `TPSL_VERIFICATION_RETRIES = 3` retries (4 calls),
sleeping the fixed `TPSL_RETRY_DELAY_SECONDS = 10` seconds before each retry
within the same reconciliation pass; after exhausting the budget it appends
exactly one critical Trade History alert and leaves the key in the store. -/
theorem c3_tpsl_retry_budget (tick : ℚ) (sym : String) (posIdx : ℕ)
    (now : String) (resp : ℕ → ApiResp) (td : VerifyPos) (ex : ExchState)
    (hist : List HEntry)
    (hpres : ex.present = true) (hsz : (ex.size == 0) = false)
    (hmis : tpslMatches tick td ex = false)
    (hfail : ∀ i, setStopOutcome (resp i) = false) :
    (verifyPass tick sym posIdx now resp ⟨some td, hist, ex, 0, []⟩).1 =
      false ∧
    (verifyPass tick sym posIdx now resp ⟨some td, hist, ex, 0, []⟩).2.calls =
      TPSL_VERIFICATION_RETRIES + 1 ∧
    (verifyPass tick sym posIdx now resp ⟨some td, hist, ex, 0, []⟩).2.sleeps =
      List.replicate TPSL_VERIFICATION_RETRIES TPSL_RETRY_DELAY_SECONDS ∧
    (verifyPass tick sym posIdx now resp ⟨some td, hist, ex, 0, []⟩).2.store =
      some td ∧
    (∃ entry, (verifyPass tick sym posIdx now resp
        ⟨some td, hist, ex, 0, []⟩).2.hist = hist ++ [entry] ∧
      entry.status = "CRITICAL: TP/SL Set Fail") := by
  have hrun : verifyPass tick sym posIdx now resp ⟨some td, hist, ex, 0, []⟩ =
      (false, ⟨some td,
        addTradeToHistory now sym "System" "Alert" "N/A" none none
          "CRITICAL: TP/SL Set Fail" "0.00"
          (some ("PosIdx " ++ natStr posIdx)) hist,
        ex, 4, [10, 10, 10]⟩) := by
    unfold verifyPass TPSL_VERIFICATION_RETRIES
    simp [verifyGo, hpres, hsz, hmis, hfail, TPSL_VERIFICATION_RETRIES,
      TPSL_RETRY_DELAY_SECONDS]
  rw [hrun]
  refine ⟨rfl, rfl, rfl, rfl,
    ⟨⟨now, sym, pyCap "Alert" ++ " " ++ pyCap "System", "N/A",
      pyStrOr none "Market", pyStrOr none "N/A", "CRITICAL: TP/SL Set Fail",
      "0.00", pyStrOr (some ("PosIdx " ++ natStr posIdx)) ""⟩, rfl, rfl⟩⟩

/-- Witness for C3 at a concrete mismatched position with an always-failing
gateway. -/
theorem c3_tpsl_retry_budget_witness :
    (verifyPass 1 "BTCUSDT" 0 "t" (fun _ => ApiResp.noResponse)
      ⟨some ⟨none, some 95, "Filled", some 100, "BUY", none⟩, [],
        ⟨true, 1, none, none⟩, 0, []⟩).1 = false ∧
    (verifyPass 1 "BTCUSDT" 0 "t" (fun _ => ApiResp.noResponse)
      ⟨some ⟨none, some 95, "Filled", some 100, "BUY", none⟩, [],
        ⟨true, 1, none, none⟩, 0, []⟩).2.calls =
      TPSL_VERIFICATION_RETRIES + 1 := by
  have h := c3_tpsl_retry_budget 1 "BTCUSDT" 0 "t"
    (fun _ => ApiResp.noResponse)
    ⟨none, some 95, "Filled", some 100, "BUY", none⟩ ⟨true, 1, none, none⟩ []
    rfl rfl
    (by norm_num [tpslMatches, fmtOpt, truthyQ, pyEqOptQ, formatPrice,
      roundDownQ])
    (fun _ => rfl)
  exact ⟨h.1, h.2.1⟩

/-- Claim C9: a set-stops call failing with a benign error — code 110043 or
a (lowercased) message containing `"not modified"` or
`"tpsl identical modify"` — is treated as success: the classification
returns `true` exactly for those errors, the verification pass returns
`true` after one call with no retry, no sleep, no Trade History alert, and
no change to store or exchange state; any other `retCode` returns `false`. -/
theorem c9_benign_not_modified (tick : ℚ) (sym : String) (posIdx : ℕ)
    (now : String) (td : VerifyPos) (ex : ExchState) (hist : List HEntry)
    (code : Option ℤ) (msg : String) (resp : ℕ → ApiResp) :
    (setStopOutcome (ApiResp.apiError code msg) = true ↔
      (code = some 110043 ∨
        strContains "tpsl identical modify" (lowerStr msg) = true ∨
        strContains "not modified" (lowerStr msg) = true)) ∧
    (∀ rc : ℤ, rc ≠ 0 → rc ≠ 110043 →
      setStopOutcome (ApiResp.apiOk rc) = false) ∧
    (ex.present = true → (ex.size == 0) = false →
      tpslMatches tick td ex = false →
      resp 0 = ApiResp.apiError code msg →
      setStopOutcome (ApiResp.apiError code msg) = true →
      verifyPass tick sym posIdx now resp ⟨some td, hist, ex, 0, []⟩ =
        (true, ⟨some td, hist, ex, 1, []⟩)) := by
  refine ⟨?_, ?_, ?_⟩
  · simp [setStopOutcome, or_assoc]
  · intro rc h0 h43
    simp [setStopOutcome, h0, h43]
  · intro hpres hsz hmis hresp hb
    unfold verifyPass verifyGo
    simp [hpres, hsz, hmis, hresp, hb]

/-- Witness for C9: a concrete benign `"not modified"` error on the first
attempt is treated as success with a single call and untouched state. -/
theorem c9_benign_not_modified_witness :
    verifyPass 1 "BTCUSDT" 0 "t"
      (fun _ => ApiResp.apiError (some 10001) "Value Not Modified")
      ⟨some ⟨none, some 95, "Filled", some 100, "BUY", none⟩, [],
        ⟨true, 1, none, none⟩, 0, []⟩ =
      (true, ⟨some ⟨none, some 95, "Filled", some 100, "BUY", none⟩, [],
        ⟨true, 1, none, none⟩, 1, []⟩) := by
  exact (c9_benign_not_modified 1 "BTCUSDT" 0 "t"
    ⟨none, some 95, "Filled", some 100, "BUY", none⟩ ⟨true, 1, none, none⟩ []
    (some 10001) "Value Not Modified"
    (fun _ => ApiResp.apiError (some 10001) "Value Not Modified")).2.2
    rfl rfl
    (by norm_num [tpslMatches, fmtOpt, truthyQ, pyEqOptQ, formatPrice,
      roundDownQ])
    rfl (by decide)

/-- Counterexample to Claim C8 as stated: with tick 0.1, intended stop
100.04 and exchange-reported stop 100.05, the two agree after BOTH are
rounded to the tick (both round to 100.0), yet the pass issues a corrective
call — the code compares the rounded intended value against the RAW
exchange value. -/
theorem c8_counterexample :
    specRoundedMatch (1/10) (some (2501/25)) (some (2001/20)) ∧
    specRoundedMatch (1/10) (none : Option ℚ) (none : Option ℚ) ∧
    (verifyPass (1/10) "BTCUSDT" 0 "t" (fun _ => ApiResp.apiOk 0)
      ⟨some ⟨none, some (2501/25), "Filled", some 100, "BUY", none⟩, [],
        ⟨true, 1, none, some (2001/20)⟩, 0, []⟩).2.calls = 1 := by
  refine ⟨?_, trivial, ?_⟩
  · norm_num [specRoundedMatch, formatPrice, roundDownQ]
  · norm_num [verifyPass, verifyGo, tpslMatches, fmtOpt, truthyQ, pyEqOptQ,
      formatPrice, roundDownQ, setStopOutcome, setOnExch, clearZero,
      TPSL_VERIFICATION_RETRIES]

/-- Claim C8 (amended): the drift-correction step issues no set-stops call
when the tick-rounded intended values equal the RAW exchange-reported values
(falsy values matching absent ones), and it is idempotent: when the first
corrective call succeeds, running the step twice in succession with no
external exchange change issues at most one corrective call in total and the
second pass finds no mismatch. -/
theorem c8_drift_idempotent (tick : ℚ) (sym : String) (posIdx : ℕ)
    (now : String) (resp resp2 : ℕ → ApiResp) (td : VerifyPos)
    (ex : ExchState) (hist : List HEntry) (c0 : ℕ) (sl0 : List ℕ)
    (hpres : ex.present = true) (hsz : (ex.size == 0) = false) :
    (tpslMatches tick td ex = true →
      verifyPass tick sym posIdx now resp ⟨some td, hist, ex, c0, sl0⟩ =
        (true, ⟨some td, hist, ex, c0, sl0⟩)) ∧
    (resp 0 = ApiResp.apiOk 0 →
      (verifyPass tick sym posIdx now resp
        ⟨some td, hist, ex, 0, []⟩).2.calls ≤ 1 ∧
      (verifyPass tick sym posIdx now resp ⟨some td, hist, ex, 0, []⟩).1 =
        true ∧
      (verifyPass tick sym posIdx now resp2
        (verifyPass tick sym posIdx now resp
          ⟨some td, hist, ex, 0, []⟩).2).2.calls =
        (verifyPass tick sym posIdx now resp
          ⟨some td, hist, ex, 0, []⟩).2.calls ∧
      (verifyPass tick sym posIdx now resp2
        (verifyPass tick sym posIdx now resp
          ⟨some td, hist, ex, 0, []⟩).2).1 = true) := by
  constructor
  · intro hm
    exact verifyPass_of_matches tick sym posIdx now resp _ td rfl hpres hsz hm
  · intro hresp
    by_cases hm : tpslMatches tick td ex = true
    · have h1 : verifyPass tick sym posIdx now resp ⟨some td, hist, ex, 0, []⟩
          = (true, ⟨some td, hist, ex, 0, []⟩) :=
        verifyPass_of_matches tick sym posIdx now resp _ td rfl hpres hsz hm
      rw [h1]
      have h2 : verifyPass tick sym posIdx now resp2
          ⟨some td, hist, ex, 0, []⟩ = (true, ⟨some td, hist, ex, 0, []⟩) :=
        verifyPass_of_matches tick sym posIdx now resp2 _ td rfl hpres hsz hm
      rw [h2]
      exact ⟨Nat.zero_le 1, rfl, rfl, rfl⟩
    · have hmf : tpslMatches tick td ex = false := by
        simpa using hm
      have h1 : verifyPass tick sym posIdx now resp ⟨some td, hist, ex, 0, []⟩
          = (true, ⟨some td, hist, setOnExch tick td ex, 1, []⟩) := by
        unfold verifyPass verifyGo
        simp [hpres, hsz, hmf, hresp, setStopOutcome]
      rw [h1]
      have h2 : verifyPass tick sym posIdx now resp2
          ⟨some td, hist, setOnExch tick td ex, 1, []⟩ =
          (true, ⟨some td, hist, setOnExch tick td ex, 1, []⟩) := by
        refine verifyPass_of_matches tick sym posIdx now resp2 _ td rfl ?_ ?_
          (tpslMatches_setOnExch tick td ex)
        · exact hpres
        · exact hsz
      rw [h2]
      exact ⟨le_refl 1, rfl, rfl, rfl⟩

/-- Witness for C8: the amended theorem at a concrete already-matching
state issues no call on either pass. -/
theorem c8_drift_idempotent_witness :
    verifyPass 1 "BTCUSDT" 0 "t" (fun _ => ApiResp.apiOk 0)
      ⟨some ⟨none, some 95, "Filled", some 100, "BUY", none⟩, [],
        ⟨true, 1, none, some 95⟩, 0, []⟩ =
      (true, ⟨some ⟨none, some 95, "Filled", some 100, "BUY", none⟩, [],
        ⟨true, 1, none, some 95⟩, 0, []⟩) := by
  exact (c8_drift_idempotent 1 "BTCUSDT" 0 "t" (fun _ => ApiResp.apiOk 0)
    (fun _ => ApiResp.apiOk 0)
    ⟨none, some 95, "Filled", some 100, "BUY", none⟩ ⟨true, 1, none, some 95⟩
    [] 0 [] rfl rfl).1
    (by norm_num [tpslMatches, fmtOpt, truthyQ, pyEqOptQ, formatPrice,
      roundDownQ])

/-- Claim C4 (amended): a position found on the exchange with positive size
and no matching store key is adopted in one pass as a synthesized entry
whose `main_order_status` is `"Filled (External/Synced)"` (not
`"Filled (External)"` as the spec words it), whose `intended_sl` and
`intended_tp1` are the exchange-reported stops (`none` when the exchange
reports `"0"` or nothing), and whose `breakeven_applied` is `false`;
a key already tracked is not adopted. -/
theorem c4_adoption_synced (now : PyDateTime) (api : ApiPosRaw)
    (hsym : ¬api.symbol = "") (hsize : 0 < apiSizeVal api.size) :
    ∃ e, adoptUntracked now api false = some e ∧
      e.main_order_status = "Filled (External/Synced)" ∧
      e.intended_sl = parseApiPrice api.stopLoss ∧
      e.intended_tp1 = parseApiPrice api.takeProfit ∧
      ((api.stopLoss = none ∨ api.stopLoss = some decLitZero) →
        e.intended_sl = none) ∧
      (∀ d, api.stopLoss = some d → d ≠ decLitZero →
        e.intended_sl = some d) ∧
      e.breakeven_applied = false ∧
      adoptUntracked now api true = none := by
  have hcond : ¬(api.symbol = "" ∨ apiSizeVal api.size ≤ 0) :=
    not_or.mpr ⟨hsym, not_le.mpr hsize⟩
  refine ⟨⟨api.symbol, api.positionIdx, pyUpper api.side,
    parseApiPrice api.avgPrice, none, parseApiPrice api.stopLoss,
    parseApiPrice api.takeProfit, parseApiPrice api.takeProfit, false, none,
    "Filled (External/Synced)", [], some now, some (parseApiSize api.size)⟩,
    ?_, rfl, rfl, rfl, ?_, ?_, rfl, ?_⟩
  · unfold adoptUntracked
    rw [if_neg hcond]
    rfl
  · intro h
    rcases h with h | h <;> simp [parseApiPrice, h]
  · intro d hd hne
    simp [parseApiPrice, hd, hne]
  · unfold adoptUntracked
    rw [if_neg hcond]
    rfl

/-- Counterexample to Claim C4 as stated: the synthesized entry's status is
the string `"Filled (External/Synced)"`, which is not the claimed
`"Filled (External)"`. -/
theorem c4_counterexample :
    (adoptUntracked ⟨2025, 6, 1, 0, 0, 0, 0⟩
      ⟨"BTCUSDT", 0, some ⟨false, 1, 0⟩, some ⟨false, 100, 0⟩, "Buy",
        some ⟨false, 95, 0⟩, none⟩ false).map TrackedPos.main_order_status =
      some "Filled (External/Synced)" ∧
    "Filled (External/Synced)" ≠ "Filled (External)" := by
  constructor
  · norm_num [adoptUntracked, apiSizeVal, parseApiSize, decVal]
    exact ⟨_, ⟨by decide, rfl⟩, rfl⟩
  · decide

/-- Witness for C4 at a concrete external position carrying a stop of 95. -/
theorem c4_adoption_synced_witness :
    ∃ e, adoptUntracked ⟨2025, 6, 1, 0, 0, 0, 0⟩
      ⟨"BTCUSDT", 0, some ⟨false, 1, 0⟩, some ⟨false, 100, 0⟩, "Buy",
        some ⟨false, 95, 0⟩, none⟩ false = some e ∧
      e.main_order_status = "Filled (External/Synced)" ∧
      e.intended_sl = parseApiPrice (some ⟨false, 95, 0⟩) ∧
      e.intended_tp1 = parseApiPrice none ∧
      ((some ⟨false, 95, 0⟩ = (none : Option PyDec) ∨
        some ⟨false, 95, 0⟩ = some decLitZero) → e.intended_sl = none) ∧
      (∀ d, some ⟨false, 95, 0⟩ = some d → d ≠ decLitZero →
        e.intended_sl = some d) ∧
      e.breakeven_applied = false ∧
      adoptUntracked ⟨2025, 6, 1, 0, 0, 0, 0⟩
        ⟨"BTCUSDT", 0, some ⟨false, 1, 0⟩, some ⟨false, 100, 0⟩, "Buy",
          some ⟨false, 95, 0⟩, none⟩ true = none := by
  exact c4_adoption_synced ⟨2025, 6, 1, 0, 0, 0, 0⟩
    ⟨"BTCUSDT", 0, some ⟨false, 1, 0⟩, some ⟨false, 100, 0⟩, "Buy",
      some ⟨false, 95, 0⟩, none⟩ (by decide)
    (by norm_num [apiSizeVal, parseApiSize, decVal])

/-- Claim C6 (amended): the entry flow compares the raw, un-floored computed
quantity against the instrument minimum — a raw quantity below the minimum
aborts the trade with `"Fail: Qty < Min"` Trade History entries (two of
them, because the UI log block runs the determination once more) and no
order is placed; a raw quantity at or above the minimum is floored to the
quantity step afterwards and the order is placed with the floored quantity,
which is checked only against zero, not against the minimum. -/
theorem c6_min_qty_check (instr : Instr) (calcQ : ℚ)
    (sym sideStr amountStr priceStr now : String) (lv pl : Bool)
    (hist : List HEntry) :
    (0 < calcQ → calcQ < instr.minOrderQty →
      (entryQtyPipeline instr calcQ sym sideStr amountStr priceStr now lv pl
        hist).1 = ExecOutcome.abortQty ∧
      countFailMin (entryQtyPipeline instr calcQ sym sideStr amountStr
        priceStr now lv pl hist).2 = countFailMin hist + 2 ∧
      (∀ q, (entryQtyPipeline instr calcQ sym sideStr amountStr priceStr now
        lv pl hist).1 ≠ ExecOutcome.placed q)) ∧
    (instr.minOrderQty ≤ calcQ → 0 < calcQ →
      0 < formatQuantity instr calcQ →
      (entryQtyPipeline instr calcQ sym sideStr amountStr priceStr now true
        true hist).1 = ExecOutcome.placed (formatQuantity instr calcQ)) := by
  constructor
  · intro h0 hlt
    have hD : ∀ h : List HEntry,
        determineQty instr calcQ sym sideStr amountStr priceStr now h =
        (0, addTradeToHistory now sym "System" sideStr amountStr
          (some priceStr) (some "N/A") "Fail: Qty < Min" "0.00" none h) := by
      intro h
      unfold determineQty
      rw [if_neg (not_le.mpr h0), if_pos hlt]
    refine ⟨?_, ?_, ?_⟩
    · simp [entryQtyPipeline, hD]
    · simp only [entryQtyPipeline, hD]
      norm_num [countFailMin, addTradeToHistory, List.countP_append,
        List.countP_cons]
    · intro q
      simp [entryQtyPipeline, hD]
  · intro hge h0 hfq
    have hD : determineQty instr calcQ sym sideStr amountStr priceStr now
        hist = (calcQ, hist) := by
      unfold determineQty
      rw [if_neg (not_le.mpr h0), if_neg (not_lt.mpr hge)]
    simp [entryQtyPipeline, hD, not_le.mpr h0, not_le.mpr hfq]

/-- Counterexample to Claim C6 as stated: with minimum 0.002 and step
0.0015, a computed quantity 0.0021 passes the raw-value minimum check,
is floored to 0.0015 — below the minimum — and the order is still placed:
the trade is not aborted although the floored quantity is below the
instrument minimum. -/
theorem c6_counterexample :
    formatQuantity ⟨1/500, some (3/2000), 3⟩ (21/10000) = 3/2000 ∧
    (3/2000 : ℚ) < 1/500 ∧
    (entryQtyPipeline ⟨1/500, some (3/2000), 3⟩ (21/10000) "BTCUSDT" "LONG"
      "0.0021" "100" "t" true true []).1 = ExecOutcome.placed (3/2000) := by
  refine ⟨?_, by norm_num, ?_⟩
  · norm_num [formatQuantity, roundDownQ]
  · norm_num [entryQtyPipeline, determineQty, formatQuantity, roundDownQ,
      addTradeToHistory]

/-- Witness for C6: the amended theorem at concrete below-minimum and
at-minimum quantities. -/
theorem c6_min_qty_check_witness :
    (entryQtyPipeline ⟨1/500, some (1/1000), 3⟩ (1/1000) "BTCUSDT" "LONG"
      "0.001" "100" "t" true true []).1 = ExecOutcome.abortQty ∧
    (entryQtyPipeline ⟨1/500, some (1/1000), 3⟩ (1/250) "BTCUSDT" "LONG"
      "0.004" "100" "t" true true []).1 =
      ExecOutcome.placed (formatQuantity ⟨1/500, some (1/1000), 3⟩ (1/250)) := by
  constructor
  · exact ((c6_min_qty_check ⟨1/500, some (1/1000), 3⟩ (1/1000) "BTCUSDT"
      "LONG" "0.001" "100" "t" true true []).1 (by norm_num)
      (by norm_num)).1
  · exact (c6_min_qty_check ⟨1/500, some (1/1000), 3⟩ (1/250) "BTCUSDT"
      "LONG" "0.004" "100" "t" true true []).2 (by norm_num) (by norm_num)
      (by norm_num [formatQuantity, roundDownQ])

/-- Claim C10: reloading the trade history applies trial parsing to every
string field — a string parseable as a `Decimal` comes back as that
`Decimal`, a remaining string parseable as an ISO timestamp comes back as a
`datetime` — and consequently a saved entry (amounts `"0.001"`/`"0.00"`,
time `"2025-06-01 12:00:00"`) loads back as an entry that is not equal to
the one saved. -/
theorem c10_history_trial_parse :
    (∀ (s : List Char) (d : PyDec), pyDecParse s = some d →
      deserializeVal (PVal.pstr s) = PVal.pdec d) ∧
    (∀ (s : List Char) (t : PyDateTime), pyDecParse s = none →
      pyIsoParse (replaceZ s) = some t →
      deserializeVal (PVal.pstr s) = PVal.pdt t) ∧
    loadHistV (serializeHistV
      ⟨PVal.pstr "2025-06-01 12:00:00".data, PVal.pstr "BTCUSDT".data,
        PVal.pstr "Buy Market".data, PVal.pstr "0.001".data,
        PVal.pstr "Market".data, PVal.pstr "abc123".data,
        PVal.pstr "Entry Placed".data, PVal.pstr "0.00".data,
        PVal.pstr "".data⟩) =
      ⟨PVal.pdt ⟨2025, 6, 1, 12, 0, 0, 0⟩, PVal.pstr "BTCUSDT".data,
        PVal.pstr "Buy Market".data, PVal.pdec ⟨false, 1, -3⟩,
        PVal.pstr "Market".data, PVal.pstr "abc123".data,
        PVal.pstr "Entry Placed".data, PVal.pdec ⟨false, 0, -2⟩,
        PVal.pstr "".data⟩ ∧
    loadHistV (serializeHistV
      ⟨PVal.pstr "2025-06-01 12:00:00".data, PVal.pstr "BTCUSDT".data,
        PVal.pstr "Buy Market".data, PVal.pstr "0.001".data,
        PVal.pstr "Market".data, PVal.pstr "abc123".data,
        PVal.pstr "Entry Placed".data, PVal.pstr "0.00".data,
        PVal.pstr "".data⟩) ≠
      ⟨PVal.pstr "2025-06-01 12:00:00".data, PVal.pstr "BTCUSDT".data,
        PVal.pstr "Buy Market".data, PVal.pstr "0.001".data,
        PVal.pstr "Market".data, PVal.pstr "abc123".data,
        PVal.pstr "Entry Placed".data, PVal.pstr "0.00".data,
        PVal.pstr "".data⟩ := by
  refine ⟨?_, ?_, by decide, by decide⟩
  · intro s d h
    simp [deserializeVal, trialParse, h]
  · intro s t h1 h2
    simp [deserializeVal, trialParse, h1, h2]

/-- Witness for C10: the amount string `"0.001"` parses as a `Decimal` and
the time string as a `datetime`. -/
theorem c10_history_trial_parse_witness :
    deserializeVal (PVal.pstr "0.001".data) = PVal.pdec ⟨false, 1, -3⟩ ∧
    deserializeVal (PVal.pstr "2025-06-01 12:00:00".data) =
      PVal.pdt ⟨2025, 6, 1, 12, 0, 0, 0⟩ := by
  exact ⟨c10_history_trial_parse.1 _ _ (by decide),
    c10_history_trial_parse.2.1 _ _ (by decide) (by decide)⟩
